import Mathlib

/-!
Verification of the paragliding-viz core numerics against its specification.

Two components are embedded from the TypeScript source:

* the flight metrics engine (the `statsListener` closure in
  `src/components/Viewer.tsx`), modelled over `ℚ` and `Int` timestamps; the
  geodesic distance (`Cartesian3.distance`, an external Cesium collaborator)
  and the terrain query (`viewer.scene.globe.getHeight`) are parameters;

* the task path optimizer (`calculateOptimizedPath` and friends in the
  optimization module, first revision), modelled over `ℝ` with `Real.sqrt`
  and `Real.cos` standing for `Math.sqrt` / `Math.cos`.
-/

namespace PV

set_option maxHeartbeats 1000000

/-! ## Flight metrics engine (Viewer.tsx, statsListener) -/

/-- One IGC fix, as consumed by the stats listener.  Timestamps are integer
milliseconds; the two altitudes are optional (absent = `undefined`). -/
structure Fix where
  timestamp : Int
  latitude : ℚ
  longitude : ℚ
  gpsAltitude : Option ℚ
  pressureAltitude : Option ℚ
  deriving DecidableEq, Repr, Inhabited

/-- JavaScript `a || d` for an optional number `a`: both `undefined` and `0`
are falsy, so they yield the default. -/
def jsOr (a : Option ℚ) (d : ℚ) : ℚ :=
  match a with
  | none => d
  | some v => if v = 0 then d else v

/-- The binary-search loop of `statsListener`:
`while (min <= max) { mid = floor((min+max)/2);
  if (ts[mid] < t) min = mid + 1 else max = mid - 1 }; return max`. -/
def bsearchLoop (ts : List Int) (t : Int) (lo hi : Int) : Int :=
  if lo ≤ hi then
    if ts.getD ((lo + hi) / 2).toNat 0 < t then
      bsearchLoop ts t ((lo + hi) / 2 + 1) hi
    else
      bsearchLoop ts t lo ((lo + hi) / 2 - 1)
  else hi
termination_by (hi + 1 - lo).toNat
decreasing_by all_goals omega

/-- The timestamp array the searches run over. -/
def fixTimestamps (fixes : List Fix) : List Int :=
  fixes.map (·.timestamp)

/-- `currentIndex`: binary search over the whole track for the query time. -/
def currentIndexOf (fixes : List Fix) (trackTime : Int) : Int :=
  bsearchLoop (fixTimestamps fixes) trackTime 0 (fixes.length - 1)

/-- `pastIndex`: binary search bounded above by `currentIndex`, for
`trackTime - 15000` (the 15 s trailing window). -/
def pastIndexOf (fixes : List Fix) (trackTime : Int) (ci : Int) : Int :=
  bsearchLoop (fixTimestamps fixes) (trackTime - 15000) 0 ci

/-- The per-pilot sample `{speed, vario, agl}` pushed to `onStatsUpdate`. -/
structure PilotStats where
  speed : ℚ
  vario : ℚ
  agl : ℚ
  deriving DecidableEq, Repr

/-- The `dt` (seconds) the listener computes between the two selected fixes. -/
def dtOf (fixes : List Fix) (trackTime : Int) : ℚ :=
  let ci := currentIndexOf fixes trackTime
  let pj := pastIndexOf fixes trackTime ci
  (((fixes.getD ci.toNat default).timestamp : ℚ)
    - ((fixes.getD pj.toNat default).timestamp : ℚ)) / 1000

/-- The body of `statsListener` for one track at one query instant.
`dist` stands for the external `Cartesian3.fromDegrees`/`Cartesian3.distance`
pipeline applied to the two fixes, `globeHeight` for the external
`viewer.scene.globe.getHeight (lon, lat)` terrain query (`none` = unknown).
Returns `none` when the code stores no entry for the track. -/
def computeStats (fixes : List Fix) (trackTime : Int)
    (dist : Fix → Fix → ℚ) (globeHeight : ℚ → ℚ → Option ℚ) : Option PilotStats :=
  let ci := currentIndexOf fixes trackTime
  if 0 ≤ ci ∧ ci < fixes.length then
    let currentFix := fixes.getD ci.toNat default
    let pj := pastIndexOf fixes trackTime ci
    if 0 ≤ pj ∧ pj < ci then
      let pastFix := fixes.getD pj.toNat default
      let dt : ℚ := (((currentFix.timestamp : ℚ)) - ((pastFix.timestamp : ℚ))) / 1000
      if 0 < dt then
        let speed := dist pastFix currentFix / dt * (36 / 10)
        let vario := (jsOr currentFix.gpsAltitude 0 - jsOr pastFix.gpsAltitude 0) / dt
        let agl :=
          match globeHeight currentFix.longitude currentFix.latitude with
          | some h => jsOr currentFix.gpsAltitude (jsOr currentFix.pressureAltitude 0) - h
          | none => 0
        some ⟨speed, vario, agl⟩
      else none
    else none
  else none

/-- Effective altitude as the specification defines it:
`gpsAltitude` if present, else `baroAltitude`, else 0.  (Spec-worded
definition, kept separate so the code's choice can be compared with it.) -/
def specEffectiveAltitude (f : Fix) : ℚ :=
  match f.gpsAltitude with
  | some v => v
  | none =>
    match f.pressureAltitude with
    | some v => v
    | none => 0

/-- Two-fix track with a fix at exactly timestamp 2000, used to evaluate the
lookup at the exact timestamp of a fix. -/
def exactTrack : List Fix := [⟨1000, 0, 0, none, none⟩, ⟨2000, 0, 0, none, none⟩]

/-- Track whose fixes carry only barometric altitude (GPS altitude absent). -/
def baroTrack : List Fix := [⟨0, 0, 0, none, some 400⟩, ⟨20000, 0, 0, none, some 500⟩]

/-- Track whose fixes carry GPS altitudes 400 m and 500 m, 20 s apart. -/
def gpsTrack : List Fix := [⟨0, 0, 0, some 400, none⟩, ⟨20000, 0, 0, some 500, none⟩]

/-- Single-fix track (too short for any 15 s window). -/
def shortTrack : List Fix := [⟨0, 0, 0, some 100, none⟩]

/-- If every timestamp in range is `≥ t`, the search loop always takes the
upper-half branch and terminates at `lo - 1`. -/
lemma bsearchLoop_all_ge (ts : List Int) (t : Int) (lo hi : Int)
    (hhi : hi < ts.length)
    (h : ∀ k : ℕ, k < ts.length → t ≤ ts.getD k 0) (hlo : 0 ≤ lo) (hle : lo ≤ hi) :
    bsearchLoop ts t lo hi = lo - 1 := by
  induction lo, hi using bsearchLoop.induct ts t with
  | case1 lo hi hle2 hlt ih =>
    exfalso
    have := h ((lo + hi) / 2).toNat (by omega)
    omega
  | case2 lo hi hle2 hlt ih =>
    rw [bsearchLoop, if_pos hle2, if_neg hlt]
    by_cases hc : lo ≤ (lo + hi) / 2 - 1
    · exact ih (by omega) hlo hc
    · rw [bsearchLoop, if_neg (by omega)]
      omega
  | case3 lo hi hgt => omega

/-- Timestamps read through `fixTimestamps` agree with the fix array. -/
lemma getD_fixTimestamps (fixes : List Fix) (k : ℕ) :
    (fixTimestamps fixes).getD k 0 = (fixes.getD k default).timestamp := by
  rcases lt_or_ge k fixes.length with hk | hk
  · simp [fixTimestamps, List.getD_eq_getElem?_getD, List.getElem?_map,
      List.getElem?_eq_getElem hk]
  · have h1 : (fixTimestamps fixes).length ≤ k := by
      simpa [fixTimestamps] using hk
    simp [List.getD_eq_getElem?_getD, List.getElem?_eq_none h1,
      List.getElem?_eq_none hk]
    rfl

/-- C8 (amended): whenever the listener does emit a sample, its vertical
speed is the difference of `gpsAltitude || 0` values (no barometric
fallback) divided by the elapsed seconds. -/
theorem vario_uses_gps_or_zero (fixes : List Fix) (trackTime : Int)
    (dist : Fix → Fix → ℚ) (globeHeight : ℚ → ℚ → Option ℚ) (s : PilotStats)
    (h : computeStats fixes trackTime dist globeHeight = some s) :
    s.vario =
      (jsOr (fixes.getD (currentIndexOf fixes trackTime).toNat default).gpsAltitude 0
        - jsOr (fixes.getD
            (pastIndexOf fixes trackTime (currentIndexOf fixes trackTime)).toNat
            default).gpsAltitude 0)
        / dtOf fixes trackTime := by
  unfold computeStats at h
  dsimp only at h
  split_ifs at h
  simp only [Option.some.injEq] at h
  subst h
  rfl

/-- C9: when no fix lies at or before the window start, or the selected
fixes have non-positive elapsed time, no sample is stored for the track. -/
theorem no_sample_when_window_unavailable (fixes : List Fix) (t : Int)
    (dist : Fix → Fix → ℚ) (globeHeight : ℚ → ℚ → Option ℚ)
    (h : (∀ k : ℕ, k < fixes.length →
            t - 15000 < (fixes.getD k default).timestamp)
         ∨ dtOf fixes t ≤ 0) :
    computeStats fixes t dist globeHeight = none := by
  unfold computeStats
  dsimp only
  split_ifs with h1 h2 h3
  · exfalso
    rcases h with hall | hdt
    · have hlen : (fixTimestamps fixes).length = fixes.length := by
        simp [fixTimestamps]
      have hpj : pastIndexOf fixes t (currentIndexOf fixes t) = -1 := by
        unfold pastIndexOf
        have hb := bsearchLoop_all_ge (fixTimestamps fixes) (t - 15000) 0
          (currentIndexOf fixes t) (by omega)
          (fun k hk => by
            rw [getD_fixTimestamps]
            exact le_of_lt (hall k (by omega)))
          (by norm_num) h1.1
        omega
      rw [hpj] at h2
      exact absurd h2.1 (by norm_num)
    · exact absurd h3 (not_lt.mpr hdt)
  · rfl
  · rfl
  · rfl

/-- Witness for C9: a single-fix track queried 5 ms in has no fix 15 s back,
and indeed no sample is emitted. -/
theorem no_sample_when_window_unavailable_witness :
    computeStats shortTrack 5 (fun _ _ => 0) (fun _ _ => none) = none :=
  no_sample_when_window_unavailable shortTrack 5 _ _ (Or.inl (by decide))

/-- The emitted `dt` is positive: a sample is only stored after the
`dt > 0` guard, so the divisions cannot be by zero. -/
theorem emitted_sample_guards (fixes : List Fix) (trackTime : Int)
    (dist : Fix → Fix → ℚ) (globeHeight : ℚ → ℚ → Option ℚ) (s : PilotStats)
    (h : computeStats fixes trackTime dist globeHeight = some s) :
    0 < dtOf fixes trackTime ∧
      0 ≤ pastIndexOf fixes trackTime (currentIndexOf fixes trackTime) ∧
      pastIndexOf fixes trackTime (currentIndexOf fixes trackTime)
        < currentIndexOf fixes trackTime := by
  unfold computeStats at h
  dsimp only at h
  split_ifs at h with h1 h2 h3
  exact ⟨h3, h2.1, h2.2⟩

/-- C7: queried at the exact timestamp of fix 1 (2000 ms), the code's binary
search selects index 0, not index 1: the comparison is strict, so the result
is the latest fix strictly before the query, while the code's own comment and
the spec promise the latest fix at or before it. -/
theorem lookup_misses_exact_timestamp :
    currentIndexOf exactTrack 2000 = 0 ∧
      (exactTrack.getD 1 default).timestamp = 2000 ∧ exactTrack.length = 2 := by
  refine ⟨?_, by decide, by decide⟩
  simp [currentIndexOf, exactTrack, fixTimestamps, bsearchLoop]

/-- C8 counterexample: on a track whose altitude is barometric only, the
emitted vertical speed is 0, while the spec's effective-altitude difference
over the same window is 5 m/s — the code takes `gpsAltitude || 0` with no
barometric fallback. -/
theorem vario_ignores_baro_counterexample :
    computeStats baroTrack 20001 (fun _ _ => 0) (fun _ _ => none)
      = some ⟨0, 0, 0⟩ ∧
    (specEffectiveAltitude (baroTrack.getD 1 default)
      - specEffectiveAltitude (baroTrack.getD 0 default)) / dtOf baroTrack 20001
      = 5 ∧
    (0 : ℚ) ≠ 5 := by
  refine ⟨?_, ?_, by norm_num⟩
  · simp [computeStats, baroTrack, currentIndexOf, pastIndexOf, fixTimestamps,
      bsearchLoop, jsOr]
  · have hdt : dtOf baroTrack 20001 = 20 := by
      simp [dtOf, baroTrack, currentIndexOf, pastIndexOf, fixTimestamps,
        bsearchLoop]
      norm_num
    rw [hdt]
    norm_num [specEffectiveAltitude, baroTrack]

/-- Witness for C8 (amended): on a GPS-altitude track the emitted vertical
speed equals the `gpsAltitude || 0` difference over `dt`. -/
theorem vario_uses_gps_or_zero_witness :
    computeStats gpsTrack 20001 (fun _ _ => 0) (fun _ _ => none)
      = some ⟨0, 5, 0⟩ ∧
    (PilotStats.mk 0 5 0).vario =
      (jsOr (gpsTrack.getD (currentIndexOf gpsTrack 20001).toNat
          default).gpsAltitude 0
        - jsOr (gpsTrack.getD
            (pastIndexOf gpsTrack 20001 (currentIndexOf gpsTrack 20001)).toNat
            default).gpsAltitude 0)
        / dtOf gpsTrack 20001 := by
  have h : computeStats gpsTrack 20001 (fun _ _ => 0) (fun _ _ => none)
      = some ⟨0, 5, 0⟩ := by
    simp [computeStats, gpsTrack, currentIndexOf, pastIndexOf, fixTimestamps,
      bsearchLoop, jsOr]
    norm_num
  exact ⟨h, vario_uses_gps_or_zero gpsTrack 20001 _ _ _ h⟩

/-- C10 (amended): when the terrain query knows no height at the current
fix's coordinate, the emitted sample carries `agl = 0` — the code leaves its
`let agl = 0` default in place rather than marking AGL unavailable. -/
theorem agl_zero_when_terrain_unknown (fixes : List Fix) (t : Int)
    (dist : Fix → Fix → ℚ) (globeHeight : ℚ → ℚ → Option ℚ) (s : PilotStats)
    (hgh : globeHeight
        (fixes.getD (currentIndexOf fixes t).toNat default).longitude
        (fixes.getD (currentIndexOf fixes t).toNat default).latitude = none)
    (h : computeStats fixes t dist globeHeight = some s) :
    s.agl = 0 := by
  unfold computeStats at h
  dsimp only at h
  split_ifs at h
  simp only [hgh, Option.some.injEq] at h
  subst h
  rfl

/-- C10 counterexample: with the terrain service returning unknown
everywhere, a sample is still emitted and its AGL is silently 0 even though
the fix flies at 500 m. -/
theorem agl_terrain_unknown_counterexample :
    computeStats gpsTrack 20001 (fun _ _ => 1) (fun _ _ => none)
      = some ⟨1 / 20 * (36 / 10), 5, 0⟩ ∧
    jsOr ((gpsTrack.getD 1 default).gpsAltitude)
      (jsOr ((gpsTrack.getD 1 default).pressureAltitude) 0) = 500 := by
  constructor
  · simp [computeStats, gpsTrack, currentIndexOf, pastIndexOf, fixTimestamps,
      bsearchLoop, jsOr]
    norm_num
  · simp [gpsTrack, jsOr]

/-- Witness for C10 (amended), at the concrete track and query above. -/
theorem agl_zero_when_terrain_unknown_witness :
    computeStats gpsTrack 20001 (fun _ _ => 0) (fun _ _ => none)
      = some ⟨0, 5, 0⟩ ∧
    (PilotStats.mk 0 5 0).agl = 0 := by
  have h : computeStats gpsTrack 20001 (fun _ _ => 0) (fun _ _ => none)
      = some ⟨0, 5, 0⟩ := by
    simp [computeStats, gpsTrack, currentIndexOf, pastIndexOf, fixTimestamps,
      bsearchLoop, jsOr]
    norm_num
  exact ⟨h, agl_zero_when_terrain_unknown gpsTrack 20001 _ _ _ rfl h⟩

/-! ## Task path optimizer (first `calculateOptimizedPath` revision) -/

/-- Turnpoint roles recognised by the optimizer. -/
inductive TPType where
  | TAKEOFF | SSS | ESS | GOAL | TURNPOINT
  deriving DecidableEq, BEq, Repr, Inhabited

/-- One turnpoint of an `XCTask` (optional altitude = `undefined`). -/
structure XCTaskPoint where
  lat : ℝ
  lon : ℝ
  alt : Option ℝ
  radius : ℝ
  type : TPType

instance : Inhabited XCTaskPoint := ⟨⟨0, 0, none, 0, TPType.TURNPOINT⟩⟩

/-- A task is its ordered turnpoint list. -/
structure XCTask where
  turnpoints : List XCTaskPoint

/-- A point of the optimizer's local working plane (meters). -/
structure Pt where
  x : ℝ
  y : ℝ

instance : Inhabited Pt := ⟨⟨0, 0⟩⟩

/-- A projected constraint: local center, radius, altitude. -/
structure LocalTP where
  x : ℝ
  y : ℝ
  radius : ℝ
  alt : ℝ

instance : Inhabited LocalTP := ⟨⟨0, 0, 0, 0⟩⟩

/-- A geographic output point of the optimizer. -/
structure GeoPt where
  lat : ℝ
  lon : ℝ
  alt : ℝ

/-- Meters per degree of longitude at the given latitude:
`kx = 111132.954 * cos(lat * π / 180)`. -/
noncomputable def kxOf (lat : ℝ) : ℝ :=
  111132.954 * Real.cos (lat * Real.pi / 180)

/-- Meters per degree of latitude at the given latitude:
`ky = 111132.954 - 559.822 * cos(2 * lat * π / 180)`. -/
noncomputable def kyOf (lat : ℝ) : ℝ :=
  111132.954 - 559.822 * Real.cos (2 * lat * Real.pi / 180)

/-- `toLocal` of the first revision: degree scale factors taken once from the
origin latitude. -/
noncomputable def toLocal (originLat originLon lon lat : ℝ) : Pt :=
  ⟨(lon - originLon) * kxOf originLat, (lat - originLat) * kyOf originLat⟩

/-- `fromLocal` of the first revision (the second revision's `fromLocal` is
the same formula, also anchored at the origin latitude). -/
noncomputable def fromLocal (originLat originLon x y : ℝ) : GeoPt :=
  ⟨originLat + y / kyOf originLat, originLon + x / kxOf originLat, 0⟩

/-- `toLocal` of the second revision: it computes `kx`, `ky` from the *input
point's* latitude, not the origin's. -/
noncomputable def toLocalSnd (originLat originLon lon lat : ℝ) : Pt :=
  ⟨(lon - originLon) * kxOf lat, (lat - originLat) * kyOf lat⟩

/-- Squared planar distance, `(Δx)² + (Δy)²` as the code forms it. -/
noncomputable def distSq (p q : Pt) : ℝ :=
  (p.x - q.x) ^ 2 + (p.y - q.y) ^ 2

/-- The clamped projection parameter `t ∈ [0,1]` of center `C` onto segment
`A–B`: `max 0 (min 1 (((C-A)·(B-A)) / |B-A|²))`. -/
noncomputable def clampedT (A B C : Pt) : ℝ :=
  max 0 (min 1 (((C.x - A.x) * (B.x - A.x) + (C.y - A.y) * (B.y - A.y))
    / ((B.x - A.x) ^ 2 + (B.y - A.y) ^ 2)))

/-- `closestOnSeg`: the point of segment `A–B` closest to `C`. -/
noncomputable def segClosest (A B C : Pt) : Pt :=
  ⟨A.x + clampedT A B C * (B.x - A.x), A.y + clampedT A B C * (B.y - A.y)⟩

/-- One in-place update of working point `i`, exactly the body of the inner
`for` loop: first point exits its cylinder toward point 1, last point enters
toward point `n-2`, and an interior point takes the clamped segment
projection when the segment meets its disk, else the boundary point nearest
the segment (neighbors closer than `1e-6` squared: the point is set to `A`). -/
noncomputable def updatePoint (centers : List LocalTP) (opt : List Pt) (i : ℕ) : Pt :=
  let center := centers.getD i default
  let r := center.radius
  let cur := opt.getD i default
  if i = 0 then
    let next := opt.getD 1 default
    let dx := next.x - center.x
    let dy := next.y - center.y
    let len := Real.sqrt (dx ^ 2 + dy ^ 2)
    if len > 1e-6 then ⟨center.x + dx / len * r, center.y + dy / len * r⟩ else cur
  else if i = opt.length - 1 then
    let prev := opt.getD (i - 1) default
    let dx := prev.x - center.x
    let dy := prev.y - center.y
    let len := Real.sqrt (dx ^ 2 + dy ^ 2)
    if len > 1e-6 then ⟨center.x + dx / len * r, center.y + dy / len * r⟩ else cur
  else
    let A := opt.getD (i - 1) default
    let B := opt.getD (i + 1) default
    let C : Pt := ⟨center.x, center.y⟩
    let lab2 := (B.x - A.x) ^ 2 + (B.y - A.y) ^ 2
    if lab2 < 1e-6 then ⟨A.x, A.y⟩
    else
      let Q := segClosest A B C
      let d2 := distSq Q C
      if d2 ≤ r ^ 2 then Q
      else
        let len := Real.sqrt d2
        if len > 0 then ⟨C.x + (Q.x - C.x) / len * r, C.y + (Q.y - C.y) / len * r⟩
        else ⟨C.x, C.y⟩

/-- One pass of the optimization loop: sequential in-place updates of the
working points in index order. -/
noncomputable def sweep (centers : List LocalTP) (opt : List Pt) : List Pt :=
  (List.range opt.length).foldl
    (fun acc i => acc.set i (updatePoint centers acc i)) opt

/-- The first `k` updates of one pass (used to name mid-pass states). -/
noncomputable def sweepUpTo (centers : List LocalTP) (opt : List Pt) (k : ℕ) : List Pt :=
  (List.range k).foldl
    (fun acc i => acc.set i (updatePoint centers acc i)) opt

/-- `startIndex`: index of the SSS turnpoint, falling back to 0. -/
def startIndexOf (t : XCTask) : ℕ :=
  match t.turnpoints.findIdx? (fun tp => tp.type == TPType.SSS) with
  | some i => i
  | none => 0

/-- `endIndex`: index of the ESS turnpoint, else of GOAL, else the last. -/
def endIndexOf (t : XCTask) : ℕ :=
  match t.turnpoints.findIdx? (fun tp => tp.type == TPType.ESS) with
  | some i => i
  | none =>
    match t.turnpoints.findIdx? (fun tp => tp.type == TPType.GOAL) with
    | some i => i
    | none => t.turnpoints.length - 1

/-- `task.turnpoints.slice(startIndex, endIndex + 1)`. -/
def relevantTPs (t : XCTask) : List XCTaskPoint :=
  (t.turnpoints.drop (startIndexOf t)).take (endIndexOf t - startIndexOf t + 1)

/-- The projected constraints: each relevant turnpoint through `toLocal`
anchored at the first relevant turnpoint, with `alt || 0`. -/
noncomputable def localCenters (t : XCTask) : List LocalTP :=
  let pts := relevantTPs t
  let p0 := pts.getD 0 default
  pts.map fun p =>
    let loc := toLocal p0.lat p0.lon p.lon p.lat
    ⟨loc.x, loc.y, p.radius, p.alt.getD 0⟩

/-- The all-centers initialization of the working points. -/
noncomputable def centersLocalPath (t : XCTask) : List Pt :=
  (localCenters t).map fun c => ⟨c.x, c.y⟩

/-- The working points after the fixed `ITERATIONS = 50` passes. -/
noncomputable def optimizedLocal (t : XCTask) : List Pt :=
  (sweep (localCenters t))^[50] (centersLocalPath t)

/-- `calculateOptimizedPath`: guards, slice, 50 relaxation passes, and the
conversion of each working point back to geographic coordinates with the
originating turnpoint's altitude (the final `Cartesian3.fromDegrees` is an
external Cesium conversion of exactly these `(lat, lon, alt)` triples). -/
noncomputable def calculateOptimizedPath (t : XCTask) : List GeoPt :=
  if t.turnpoints.length < 2 then []
  else if endIndexOf t ≤ startIndexOf t then []
  else
    let pts := relevantTPs t
    let p0 := pts.getD 0 default
    let centers := localCenters t
    ((optimizedLocal t).zip centers).map fun pc =>
      let geo := fromLocal p0.lat p0.lon pc.1.x pc.1.y
      ⟨geo.lat, geo.lon, pc.2.alt⟩

/-- Sum of planar distances between consecutive points, the local-plane
reading of `calculateTaskDistance` (whose per-segment distance is the
external `Cartesian3.distance` of the corresponding output points). -/
noncomputable def localPathLength : List Pt → ℝ
  | p :: q :: rest => Real.sqrt (distSq p q) + localPathLength (q :: rest)
  | _ => 0

/-- Projecting `Q` radially onto the circle of radius `r ≥ 0` around `C`
lands at distance exactly `r` from `C`. -/
lemma boundary_dist (qx qy cx cy r : ℝ) (hr : 0 ≤ r)
    (h : 0 < (qx - cx) ^ 2 + (qy - cy) ^ 2) :
    Real.sqrt
      ((cx + (qx - cx) / Real.sqrt ((qx - cx) ^ 2 + (qy - cy) ^ 2) * r - cx) ^ 2
        + (cy + (qy - cy) / Real.sqrt ((qx - cx) ^ 2 + (qy - cy) ^ 2) * r - cy) ^ 2)
      = r := by
  set s := Real.sqrt ((qx - cx) ^ 2 + (qy - cy) ^ 2) with hs
  have hs2 : s ^ 2 = (qx - cx) ^ 2 + (qy - cy) ^ 2 := Real.sq_sqrt (le_of_lt h)
  have hs0 : s ≠ 0 := by
    have := Real.sqrt_pos.mpr h
    rw [← hs] at this
    exact ne_of_gt this
  have key : (cx + (qx - cx) / s * r - cx) ^ 2 + (cy + (qy - cy) / s * r - cy) ^ 2
      = ((qx - cx) ^ 2 + (qy - cy) ^ 2) * (r / s) ^ 2 := by ring
  rw [key, ← hs2, div_pow]
  rw [mul_div_cancel₀ _ (pow_ne_zero 2 hs0)]
  exact Real.sqrt_sq hr

/-- C1: a non-degenerate interior update lands on the clamped closest point
`Q` of segment `A–B` when `Q` is within the disk, and exactly on the
boundary circle when the segment stays outside the disk. -/
theorem interior_update_on_segment_or_boundary
    (centers : List LocalTP) (opt : List Pt) (i : ℕ) (A B C : Pt) (r : ℝ)
    (h0 : i ≠ 0) (h1 : i ≠ opt.length - 1)
    (hA : A = opt.getD (i - 1) default) (hB : B = opt.getD (i + 1) default)
    (hC : C = ⟨(centers.getD i default).x, (centers.getD i default).y⟩)
    (hrdef : r = (centers.getD i default).radius)
    (hlab : ¬ ((B.x - A.x) ^ 2 + (B.y - A.y) ^ 2 < 1e-6))
    (hr : 0 ≤ r) :
    (0 ≤ clampedT A B C ∧ clampedT A B C ≤ 1 ∧
      segClosest A B C = ⟨A.x + clampedT A B C * (B.x - A.x),
        A.y + clampedT A B C * (B.y - A.y)⟩) ∧
    (distSq (segClosest A B C) C ≤ r ^ 2 →
      updatePoint centers opt i = segClosest A B C) ∧
    (r ^ 2 < distSq (segClosest A B C) C →
      Real.sqrt (distSq (updatePoint centers opt i) C) = r) := by
  subst hA hB hC hrdef
  set A := opt.getD (i - 1) default
  set B := opt.getD (i + 1) default
  set C : Pt := ⟨(centers.getD i default).x, (centers.getD i default).y⟩
  set r := (centers.getD i default).radius
  set Q := segClosest A B C with hQ
  have hup : updatePoint centers opt i =
      if distSq Q C ≤ r ^ 2 then Q
      else if Real.sqrt (distSq Q C) > 0 then
        ⟨C.x + (Q.x - C.x) / Real.sqrt (distSq Q C) * r,
         C.y + (Q.y - C.y) / Real.sqrt (distSq Q C) * r⟩
      else ⟨C.x, C.y⟩ := by
    unfold updatePoint
    rw [if_neg h0, if_neg h1, if_neg hlab]
  refine ⟨⟨le_max_left _ _, max_le (by norm_num) (min_le_left _ _), rfl⟩, ?_, ?_⟩
  · intro hin
    rw [hup, if_pos hin]
  · intro hout
    have hd2 : 0 < distSq Q C := lt_of_le_of_lt (by positivity) hout
    have hlen : 0 < Real.sqrt (distSq Q C) := Real.sqrt_pos.mpr hd2
    rw [hup, if_neg (not_le.mpr hout), if_pos hlen]
    have hd2' : 0 < (Q.x - C.x) ^ 2 + (Q.y - C.y) ^ 2 := by
      simpa [distSq] using hd2
    have := boundary_dist Q.x Q.y C.x C.y r hr hd2'
    simp only [distSq] at this ⊢
    exact this

/-- Constraint list for the C1 witness: interior disk of radius 1 at (1,5). -/
noncomputable def wCenters : List LocalTP := [default, ⟨1, 5, 1, 0⟩, default]

/-- Working points for the C1 witness. -/
noncomputable def wOpt : List Pt := [⟨0, 0⟩, ⟨9, 9⟩, ⟨2, 0⟩]

/-- Witness for C1 at `A = (0,0)`, `B = (2,0)`, `C = (1,5)`, `r = 1`. -/
theorem interior_update_on_segment_or_boundary_witness :
    (0 ≤ clampedT ⟨0, 0⟩ ⟨2, 0⟩ ⟨1, 5⟩ ∧ clampedT ⟨0, 0⟩ ⟨2, 0⟩ ⟨1, 5⟩ ≤ 1 ∧
      segClosest ⟨0, 0⟩ ⟨2, 0⟩ ⟨1, 5⟩
        = ⟨(Pt.mk 0 0).x + clampedT ⟨0, 0⟩ ⟨2, 0⟩ ⟨1, 5⟩ * ((Pt.mk 2 0).x - (Pt.mk 0 0).x),
           (Pt.mk 0 0).y + clampedT ⟨0, 0⟩ ⟨2, 0⟩ ⟨1, 5⟩ * ((Pt.mk 2 0).y - (Pt.mk 0 0).y)⟩) ∧
    (distSq (segClosest ⟨0, 0⟩ ⟨2, 0⟩ ⟨1, 5⟩) ⟨1, 5⟩ ≤ 1 ^ 2 →
      updatePoint wCenters wOpt 1 = segClosest ⟨0, 0⟩ ⟨2, 0⟩ ⟨1, 5⟩) ∧
    (1 ^ 2 < distSq (segClosest ⟨0, 0⟩ ⟨2, 0⟩ ⟨1, 5⟩) ⟨1, 5⟩ →
      Real.sqrt (distSq (updatePoint wCenters wOpt 1) ⟨1, 5⟩) = 1) :=
  interior_update_on_segment_or_boundary wCenters wOpt 1 ⟨0, 0⟩ ⟨2, 0⟩ ⟨1, 5⟩ 1
    (by norm_num) (by simp [wOpt])
    (by simp [wOpt]) (by simp [wOpt])
    (by simp [wCenters]) (by simp [wCenters])
    (by norm_num) (by norm_num)


/-- `ky` is positive at every latitude (`cos ≤ 1`). -/
lemma kyOf_pos (lat : ℝ) : 0 < kyOf lat := by
  unfold kyOf
  nlinarith [Real.cos_le_one (2 * lat * Real.pi / 180)]

/-- At the equator the longitude scale factor is the full degree length. -/
lemma kxOf_zero : kxOf 0 = 111132.954 := by
  unfold kxOf
  norm_num

/-- At the equator the latitude scale factor evaluates exactly. -/
lemma kyOf_zero : kyOf 0 = 110573.132 := by
  unfold kyOf
  norm_num

/-- C3 (amended): for the first revision — scale factors taken once from the
origin latitude — `fromLocal` is the exact algebraic inverse of `toLocal`
whenever `kx ≠ 0` (i.e. away from the poles); `ky ≠ 0` holds always. -/
theorem fromLocal_toLocal_roundtrip (originLat originLon lon lat : ℝ)
    (hkx : kxOf originLat ≠ 0) :
    fromLocal originLat originLon (toLocal originLat originLon lon lat).x
      (toLocal originLat originLon lon lat).y = ⟨lat, lon, 0⟩ := by
  have hky : kyOf originLat ≠ 0 := ne_of_gt (kyOf_pos _)
  unfold fromLocal toLocal
  simp only [GeoPt.mk.injEq]
  refine ⟨?_, ?_, trivial⟩ <;> field_simp

/-- Witness for C3 (amended), at an equatorial origin. -/
theorem fromLocal_toLocal_roundtrip_witness :
    fromLocal 0 0 (toLocal 0 0 7 (1/2)).x (toLocal 0 0 7 (1/2)).y
      = ⟨1/2, 7, 0⟩ :=
  fromLocal_toLocal_roundtrip 0 0 7 (1/2) (by rw [kxOf_zero]; norm_num)

/-- Quantitative bound `cos(π/180) < 1 - 1.0718e-4`, from the Taylor bound
on `cos` and the decimal bounds on `π`. -/
lemma cos_deg_one_lt : Real.cos (Real.pi / 180) < 1 - 0.00010718 := by
  have hpi1 := Real.pi_gt_d6
  have hpi2 := Real.pi_lt_d6
  set x := Real.pi / 180 with hx
  have hxl : (3.141592 : ℝ) / 180 < x := by
    rw [hx]
    exact (div_lt_div_iff_of_pos_right (by norm_num)).mpr hpi1
  have hxu : x < (3.141593 : ℝ) / 180 := by
    rw [hx]
    exact (div_lt_div_iff_of_pos_right (by norm_num)).mpr hpi2
  have hxpos : 0 < x := lt_trans (by norm_num) hxl
  have hxabs : |x| ≤ 1 := by
    rw [abs_of_pos hxpos]
    linarith
  have hcb := Real.cos_bound hxabs
  have habs : |x| ^ 4 = x ^ 4 := by
    rw [pow_abs, abs_of_nonneg (by positivity)]
  rw [habs] at hcb
  have hup := (abs_le.mp hcb).2
  have h2l : x ^ 2 > 0.000304617 := by nlinarith
  have h2u : x ^ 2 < 0.000304618 := by nlinarith
  have h4 : x ^ 4 < 0.000000093 := by nlinarith [h2u, sq_nonneg x, sq_nonneg (x ^ 2)]
  nlinarith

/-- C3 counterexample: the second revision computes `toLocal`'s scale factors
at the input point's latitude while `fromLocal` uses the origin's, so the
round trip at origin `(0,0)` and `p = (lat 0.5°, lon 0)` — about 55.3 km from
the origin, within the claim's 100 km domain — moves the latitude by more
than 3 cm (`> 3/100` meters when scaled by `ky`), far beyond sub-millimeter. -/
theorem secondRevision_roundtrip_error :
    ((fromLocal 0 0 (toLocalSnd 0 0 0 (1/2)).x (toLocalSnd 0 0 0 (1/2)).y).lat
        - 1/2) * kyOf 0 > 3/100 ∧
    (1/2 : ℝ) * kyOf 0 < 100000 := by
  constructor
  · have hc := cos_deg_one_lt
    unfold fromLocal toLocalSnd kyOf
    have harg : 2 * (1/2 : ℝ) * Real.pi / 180 = Real.pi / 180 := by ring
    rw [harg]
    have harg0 : 2 * (0 : ℝ) * Real.pi / 180 = 0 := by ring
    rw [harg0, Real.cos_zero]
    set c := Real.cos (Real.pi / 180)
    have key : ((0 : ℝ) + (1/2 - 0) * (111132.954 - 559.822 * c)
          / (111132.954 - 559.822 * 1) - 1/2) * (111132.954 - 559.822 * 1)
        = 279.911 * (1 - c) := by
      ring
    rw [key]
    nlinarith
  · rw [kyOf_zero]
    norm_num


/-- A found index is within the list (shifted by the search's start index). -/
lemma findIdx?_lt_length {α : Type} (p : α → Bool) (l : List α) (i0 j : ℕ)
    (h : l.findIdx? p i0 = some j) : j < i0 + l.length := by
  induction l generalizing i0 with
  | nil => simp [List.findIdx?_nil] at h
  | cons a as ih =>
    rw [List.findIdx?_cons] at h
    simp only [List.length_cons]
    split_ifs at h
    · simp only [Option.some.injEq] at h
      omega
    · have := ih (i0 + 1) h
      omega

/-- `endIndex` always lands inside the turnpoint list. -/
lemma endIndexOf_lt_length (t : XCTask) (h : 0 < t.turnpoints.length) :
    endIndexOf t < t.turnpoints.length := by
  unfold endIndexOf
  cases h1 : t.turnpoints.findIdx? (fun tp => tp.type == TPType.ESS) with
  | some i =>
    dsimp only
    have := findIdx?_lt_length _ _ _ _ h1
    omega
  | none =>
    dsimp only
    cases h2 : t.turnpoints.findIdx? (fun tp => tp.type == TPType.GOAL) with
    | some i =>
      dsimp only
      have := findIdx?_lt_length _ _ _ _ h2
      omega
    | none =>
      dsimp only
      omega

/-- In-place updates driven by any index list preserve the point count. -/
lemma foldl_set_length (centers : List LocalTP) (idxs : List ℕ) (acc : List Pt) :
    (idxs.foldl (fun a i => a.set i (updatePoint centers a i)) acc).length
      = acc.length := by
  induction idxs generalizing acc with
  | nil => rfl
  | cons i is ih =>
    rw [List.foldl_cons, ih]
    exact List.length_set acc i _

/-- One pass preserves the point count. -/
lemma sweep_length (centers : List LocalTP) (opt : List Pt) :
    (sweep centers opt).length = opt.length :=
  foldl_set_length centers _ opt

/-- All passes preserve the point count. -/
lemma iterate_sweep_length (centers : List LocalTP) (opt : List Pt) (n : ℕ) :
    ((sweep centers)^[n] opt).length = opt.length := by
  induction n generalizing opt with
  | zero => rfl
  | succ n ih =>
    rw [Function.iterate_succ_apply, ih, sweep_length]

/-- The optimized working points are one per sliced turnpoint. -/
lemma optimizedLocal_length (t : XCTask) :
    (optimizedLocal t).length = (relevantTPs t).length := by
  unfold optimizedLocal centersLocalPath
  rw [iterate_sweep_length]
  simp [localCenters]

/-- The output path has one point per turnpoint of the optimized slice
`[startIndex, endIndex]`, not per turnpoint of the task. -/
lemma optimizedPath_length_eq (t : XCTask) (h2 : 2 ≤ t.turnpoints.length)
    (hse : startIndexOf t < endIndexOf t) :
    (calculateOptimizedPath t).length = endIndexOf t - startIndexOf t + 1 := by
  have he : endIndexOf t < t.turnpoints.length := endIndexOf_lt_length t (by omega)
  unfold calculateOptimizedPath
  rw [if_neg (by omega), if_neg (by omega)]
  dsimp only
  rw [List.length_map, List.length_zip, optimizedLocal_length]
  have hc : (localCenters t).length = (relevantTPs t).length := by
    simp [localCenters]
  rw [hc]
  have hr : (relevantTPs t).length = endIndexOf t - startIndexOf t + 1 := by
    unfold relevantTPs
    rw [List.length_take, List.length_drop]
    omega
  rw [hr]
  omega



lemma sqrt_eval (a b : ℝ) (hb : 0 ≤ b) (h : a = b ^ 2) : Real.sqrt a = b := by
  rw [h, Real.sqrt_sq hb]

noncomputable def taskTwo : XCTask :=
  ⟨[⟨0, 0, none, 100, TPType.TURNPOINT⟩,
    ⟨0, 1000/111132954, none, 0, TPType.TURNPOINT⟩]⟩

lemma localCenters_taskTwo :
    localCenters taskTwo = [⟨0, 0, 100, 0⟩, ⟨1, 0, 0, 0⟩] := by
  have hs : startIndexOf taskTwo = 0 := by decide
  have he : endIndexOf taskTwo = 1 := by decide
  unfold localCenters relevantTPs
  rw [hs, he]
  show (taskTwo.turnpoints.take 2).map _ = _
  simp only [taskTwo, List.take_succ_cons, List.take_nil, List.map_cons,
    List.map_nil, List.getD_cons_zero, List.take]
  unfold toLocal
  rw [kxOf_zero, kyOf_zero]
  norm_num



lemma sweep_taskTwo_step1 :
    sweep [⟨0, 0, 100, 0⟩, ⟨1, 0, 0, 0⟩] [⟨0, 0⟩, ⟨1, 0⟩]
      = [⟨100, 0⟩, ⟨1, 0⟩] := by
  have h1 : Real.sqrt 1 = 1 := Real.sqrt_one
  unfold sweep
  rw [show ([(⟨0, 0⟩ : Pt), ⟨1, 0⟩]).length = 2 from rfl]
  rw [show List.range 2 = [0, 1] from by decide]
  rw [List.foldl_cons, List.foldl_cons, List.foldl_nil]
  norm_num [updatePoint, List.getD_cons_zero, List.getD_cons_succ, h1, List.set]

lemma sweep_taskTwo_fixed :
    sweep [⟨0, 0, 100, 0⟩, ⟨1, 0, 0, 0⟩] [⟨100, 0⟩, ⟨1, 0⟩]
      = [⟨100, 0⟩, ⟨1, 0⟩] := by
  have h1 : Real.sqrt 1 = 1 := Real.sqrt_one
  unfold sweep
  rw [show ([(⟨100, 0⟩ : Pt), ⟨1, 0⟩]).length = 2 from rfl]
  rw [show List.range 2 = [0, 1] from by decide]
  rw [List.foldl_cons, List.foldl_cons, List.foldl_nil]
  norm_num [updatePoint, List.getD_cons_zero, List.getD_cons_succ, h1, List.set]



noncomputable def taskThree : XCTask :=
  ⟨[⟨0, 0, none, 100, TPType.TURNPOINT⟩,
    ⟨0, 1000000/111132954, none, 10, TPType.TURNPOINT⟩,
    ⟨0, 0, none, 100, TPType.TURNPOINT⟩]⟩

lemma localCenters_taskThree :
    localCenters taskThree = [⟨0, 0, 100, 0⟩, ⟨1000, 0, 10, 0⟩, ⟨0, 0, 100, 0⟩] := by
  have hs : startIndexOf taskThree = 0 := by decide
  have he : endIndexOf taskThree = 2 := by decide
  unfold localCenters relevantTPs
  rw [hs, he]
  show (taskThree.turnpoints.take 3).map _ = _
  simp only [taskThree, List.take_succ_cons, List.take_nil, List.map_cons,
    List.map_nil, List.getD_cons_zero, List.take]
  unfold toLocal
  rw [kxOf_zero, kyOf_zero]
  norm_num

lemma sweep_taskThree_step1 :
    sweep [⟨0, 0, 100, 0⟩, ⟨1000, 0, 10, 0⟩, ⟨0, 0, 100, 0⟩]
        [⟨0, 0⟩, ⟨1000, 0⟩, ⟨0, 0⟩]
      = [⟨100, 0⟩, ⟨990, 0⟩, ⟨100, 0⟩] := by
  have hs1 : Real.sqrt 1000000 = 1000 := sqrt_eval _ _ (by norm_num) (by norm_num)
  have hs2 : Real.sqrt 810000 = 900 := sqrt_eval _ _ (by norm_num) (by norm_num)
  have hs3 : Real.sqrt 980100 = 990 := sqrt_eval _ _ (by norm_num) (by norm_num)
  unfold sweep
  rw [show ([(⟨0, 0⟩ : Pt), ⟨1000, 0⟩, ⟨0, 0⟩]).length = 3 from rfl]
  rw [show List.range 3 = [0, 1, 2] from by decide]
  rw [List.foldl_cons, List.foldl_cons, List.foldl_cons, List.foldl_nil]
  norm_num [updatePoint, segClosest, clampedT, distSq, List.getD_cons_zero,
    List.getD_cons_succ, List.set, hs1, hs2, hs3, min_def, max_def]



lemma sweep_taskThree_step2 :
    sweep [⟨0, 0, 100, 0⟩, ⟨1000, 0, 10, 0⟩, ⟨0, 0, 100, 0⟩]
        [⟨100, 0⟩, ⟨990, 0⟩, ⟨100, 0⟩]
      = [⟨100, 0⟩, ⟨100, 0⟩, ⟨100, 0⟩] := by
  have hs3 : Real.sqrt 980100 = 990 := sqrt_eval _ _ (by norm_num) (by norm_num)
  have hs4 : Real.sqrt 10000 = 100 := sqrt_eval _ _ (by norm_num) (by norm_num)
  unfold sweep
  rw [show ([(⟨100, 0⟩ : Pt), ⟨990, 0⟩, ⟨100, 0⟩]).length = 3 from rfl]
  rw [show List.range 3 = [0, 1, 2] from by decide]
  rw [List.foldl_cons, List.foldl_cons, List.foldl_cons, List.foldl_nil]
  norm_num [updatePoint, segClosest, clampedT, distSq, List.getD_cons_zero,
    List.getD_cons_succ, List.set, hs3, hs4, min_def, max_def]

lemma sweep_taskThree_fixed :
    sweep [⟨0, 0, 100, 0⟩, ⟨1000, 0, 10, 0⟩, ⟨0, 0, 100, 0⟩]
        [⟨100, 0⟩, ⟨100, 0⟩, ⟨100, 0⟩]
      = [⟨100, 0⟩, ⟨100, 0⟩, ⟨100, 0⟩] := by
  have hs4 : Real.sqrt 10000 = 100 := sqrt_eval _ _ (by norm_num) (by norm_num)
  unfold sweep
  rw [show ([(⟨100, 0⟩ : Pt), ⟨100, 0⟩, ⟨100, 0⟩]).length = 3 from rfl]
  rw [show List.range 3 = [0, 1, 2] from by decide]
  rw [List.foldl_cons, List.foldl_cons, List.foldl_cons, List.foldl_nil]
  norm_num [updatePoint, segClosest, clampedT, distSq, List.getD_cons_zero,
    List.getD_cons_succ, List.set, hs4, min_def, max_def]

lemma optimizedLocal_taskThree :
    optimizedLocal taskThree = [⟨100, 0⟩, ⟨100, 0⟩, ⟨100, 0⟩] := by
  unfold optimizedLocal centersLocalPath
  rw [localCenters_taskThree]
  rw [show ([(⟨0, 0, 100, 0⟩ : LocalTP), ⟨1000, 0, 10, 0⟩, ⟨0, 0, 100, 0⟩].map
      fun c => (⟨c.x, c.y⟩ : Pt)) = [⟨0, 0⟩, ⟨1000, 0⟩, ⟨0, 0⟩] from rfl]
  rw [show (50 : ℕ) = 48 + 1 + 1 from rfl, Function.iterate_succ_apply,
    Function.iterate_succ_apply, sweep_taskThree_step1, sweep_taskThree_step2,
    Function.iterate_fixed sweep_taskThree_fixed]

lemma optimizedLocal_taskTwo :
    optimizedLocal taskTwo = [⟨100, 0⟩, ⟨1, 0⟩] := by
  unfold optimizedLocal centersLocalPath
  rw [localCenters_taskTwo]
  rw [show ([(⟨0, 0, 100, 0⟩ : LocalTP), ⟨1, 0, 0, 0⟩].map
      fun c => (⟨c.x, c.y⟩ : Pt)) = [⟨0, 0⟩, ⟨1, 0⟩] from rfl]
  rw [show (50 : ℕ) = 49 + 1 from rfl, Function.iterate_succ_apply,
    sweep_taskTwo_step1, Function.iterate_fixed sweep_taskTwo_fixed]



/-- Membership of a working point in its disk, in squared form. -/
def inDiskSq (c : LocalTP) (p : Pt) : Prop :=
  distSq p ⟨c.x, c.y⟩ ≤ c.radius ^ 2

/-- Every working point sits inside its own constraint disk. -/
def AllIn (centers : List LocalTP) (s : List Pt) : Prop :=
  ∀ j : ℕ, inDiskSq (centers.getD j default) (s.getD j default)

/-- The `lab2` quantity the interior update tests, at index `i` of state `s`. -/
noncomputable def lab2At (s : List Pt) (i : ℕ) : ℝ :=
  ((s.getD (i + 1) default).x - (s.getD (i - 1) default).x) ^ 2
    + ((s.getD (i + 1) default).y - (s.getD (i - 1) default).y) ^ 2

/-- No interior update during the 50 passes ever sees neighbors closer than
the `1e-6` squared-distance threshold. -/
def NonDegenerate (centers : List LocalTP) (s0 : List Pt) : Prop :=
  ∀ m : ℕ, m < 50 → ∀ i : ℕ, i < s0.length → i ≠ 0 → i ≠ s0.length - 1 →
    ¬ lab2At (sweepUpTo centers ((sweep centers)^[m] s0) i) i < 1e-6

lemma getD_set_self (l : List Pt) (k : ℕ) (v : Pt) (h : k < l.length) :
    (l.set k v).getD k default = v := by
  rw [List.getD_eq_getElem?_getD, List.getElem?_set_eq_of_lt v h]
  rfl

lemma getD_set_ne (l : List Pt) (k j : ℕ) (v : Pt) (h : k ≠ j) :
    (l.set k v).getD j default = l.getD j default := by
  rw [List.getD_eq_getElem?_getD, List.getElem?_set_ne h,
    ← List.getD_eq_getElem?_getD]

lemma sqrt_gt_small_pos {u : ℝ} (h : Real.sqrt u > 1e-6) : 0 < u := by
  by_contra hc
  push_neg at hc
  have h0 : Real.sqrt u = 0 := by
    rw [show u = u from rfl] at hc
    exact Real.sqrt_eq_zero_of_nonpos hc
  rw [h0] at h
  norm_num at h

lemma ratio_sq (dx dy r : ℝ) (h : 0 < dx ^ 2 + dy ^ 2) :
    (dx / Real.sqrt (dx ^ 2 + dy ^ 2) * r) ^ 2
      + (dy / Real.sqrt (dx ^ 2 + dy ^ 2) * r) ^ 2 = r ^ 2 := by
  have hs2 : Real.sqrt (dx ^ 2 + dy ^ 2) ^ 2 = dx ^ 2 + dy ^ 2 :=
    Real.sq_sqrt h.le
  have hs0 : Real.sqrt (dx ^ 2 + dy ^ 2) ≠ 0 := ne_of_gt (Real.sqrt_pos.mpr h)
  set s := Real.sqrt (dx ^ 2 + dy ^ 2)
  have key : (dx / s * r) ^ 2 + (dy / s * r) ^ 2
      = (dx ^ 2 + dy ^ 2) * (r / s) ^ 2 := by ring
  rw [key, ← hs2, div_pow, mul_div_cancel₀ _ (pow_ne_zero 2 hs0)]

lemma boundary_inDiskSq (c : LocalTP) (dx dy : ℝ) (hpos : 0 < dx ^ 2 + dy ^ 2) :
    inDiskSq c ⟨c.x + dx / Real.sqrt (dx ^ 2 + dy ^ 2) * c.radius,
                c.y + dy / Real.sqrt (dx ^ 2 + dy ^ 2) * c.radius⟩ := by
  unfold inDiskSq distSq
  dsimp only
  nlinarith [ratio_sq dx dy c.radius hpos]

lemma updatePoint_stays (centers : List LocalTP) (opt : List Pt) (i : ℕ)
    (hcur : inDiskSq (centers.getD i default) (opt.getD i default))
    (hlab : i ≠ 0 → i ≠ opt.length - 1 → ¬ lab2At opt i < 1e-6) :
    inDiskSq (centers.getD i default) (updatePoint centers opt i) := by
  unfold updatePoint
  by_cases hi0 : i = 0
  · rw [if_pos hi0]
    dsimp only
    split_ifs with hlen
    · exact boundary_inDiskSq _ _ _ (sqrt_gt_small_pos hlen)
    · exact hcur
  · rw [if_neg hi0]
    by_cases hiN : i = opt.length - 1
    · rw [if_pos hiN]
      dsimp only
      split_ifs with hlen
      · exact boundary_inDiskSq _ _ _ (sqrt_gt_small_pos hlen)
      · exact hcur
    · rw [if_neg hiN]
      have hlab2 := hlab hi0 hiN
      unfold lab2At at hlab2
      dsimp only
      rw [if_neg hlab2]
      set A := opt.getD (i - 1) default with hA
      set B := opt.getD (i + 1) default with hB
      set c := centers.getD i default with hc
      set Q := segClosest A B ⟨c.x, c.y⟩ with hQ
      by_cases hd2 : distSq Q ⟨c.x, c.y⟩ ≤ c.radius ^ 2
      · rw [if_pos hd2]
        exact hd2
      · rw [if_neg hd2]
        have hpos : 0 < distSq Q ⟨c.x, c.y⟩ := by
          have := sq_nonneg c.radius
          push_neg at hd2
          linarith
        rw [if_pos (Real.sqrt_pos.mpr hpos)]
        have hpos' : 0 < (Q.x - c.x) ^ 2 + (Q.y - c.y) ^ 2 := by
          simpa [distSq] using hpos
        unfold inDiskSq
        simp only [distSq]
        exact le_of_eq (by
          nlinarith [ratio_sq (Q.x - c.x) (Q.y - c.y) c.radius hpos'])



lemma sweepUpTo_succ (centers : List LocalTP) (s : List Pt) (k : ℕ) :
    sweepUpTo centers s (k + 1)
      = (sweepUpTo centers s k).set k
          (updatePoint centers (sweepUpTo centers s k) k) := by
  unfold sweepUpTo
  rw [List.range_succ, List.foldl_append, List.foldl_cons, List.foldl_nil]

lemma sweepUpTo_length (centers : List LocalTP) (s : List Pt) (k : ℕ) :
    (sweepUpTo centers s k).length = s.length :=
  foldl_set_length centers _ s

lemma sweep_eq_sweepUpTo (centers : List LocalTP) (s : List Pt) :
    sweep centers s = sweepUpTo centers s s.length := rfl

lemma allIn_sweepUpTo (centers : List LocalTP) (s : List Pt)
    (hall : AllIn centers s)
    (hnd : ∀ i : ℕ, i < s.length → i ≠ 0 → i ≠ s.length - 1 →
      ¬ lab2At (sweepUpTo centers s i) i < 1e-6) :
    ∀ k : ℕ, AllIn centers (sweepUpTo centers s k) := by
  intro k
  induction k with
  | zero => exact hall
  | succ k ih =>
    rw [sweepUpTo_succ]
    by_cases hk : k < s.length
    · intro j
      by_cases hj : j = k
      · subst hj
        rw [getD_set_self _ _ _ (by rw [sweepUpTo_length]; exact hk)]
        refine updatePoint_stays centers (sweepUpTo centers s j) j (ih j) ?_
        intro h0 hN
        rw [sweepUpTo_length] at hN
        exact hnd j hk h0 hN
      · rw [getD_set_ne _ _ _ _ (fun he => hj he.symm)]
        exact ih j
    · rw [List.set_eq_of_length_le (by rw [sweepUpTo_length]; omega)]
      exact ih

lemma allIn_sweep (centers : List LocalTP) (s : List Pt)
    (hall : AllIn centers s)
    (hnd : ∀ i : ℕ, i < s.length → i ≠ 0 → i ≠ s.length - 1 →
      ¬ lab2At (sweepUpTo centers s i) i < 1e-6) :
    AllIn centers (sweep centers s) := by
  rw [sweep_eq_sweepUpTo]
  exact allIn_sweepUpTo centers s hall hnd s.length

lemma getD_map_pt (l : List LocalTP) (j : ℕ) :
    ((l.map fun c => (⟨c.x, c.y⟩ : Pt)).getD j default)
      = ⟨(l.getD j default).x, (l.getD j default).y⟩ := by
  rcases lt_or_ge j l.length with hj | hj
  · rw [List.getD_eq_getElem?_getD, List.getElem?_map,
      List.getElem?_eq_getElem hj, List.getD_eq_getElem?_getD,
      List.getElem?_eq_getElem hj]
    rfl
  · rw [List.getD_eq_getElem?_getD, List.getElem?_eq_none (by simpa using hj),
      List.getD_eq_getElem?_getD, List.getElem?_eq_none hj]
    rfl

lemma allIn_init (centers : List LocalTP) :
    AllIn centers (centers.map fun c => (⟨c.x, c.y⟩ : Pt)) := by
  intro j
  rw [getD_map_pt]
  unfold inDiskSq distSq
  dsimp only
  nlinarith [sq_nonneg (centers.getD j default).radius]

lemma allIn_iterate (centers : List LocalTP) (s0 : List Pt)
    (hall : AllIn centers s0)
    (hnd : ∀ m : ℕ, m < 50 → ∀ i : ℕ, i < s0.length → i ≠ 0 → i ≠ s0.length - 1 →
      ¬ lab2At (sweepUpTo centers ((sweep centers)^[m] s0) i) i < 1e-6) :
    ∀ m : ℕ, m ≤ 50 → AllIn centers ((sweep centers)^[m] s0) := by
  intro m
  induction m with
  | zero => exact fun _ => hall
  | succ m ih =>
    intro hm
    rw [Function.iterate_succ_apply']
    refine allIn_sweep centers _ (ih (by omega)) ?_
    intro i hi h0 hN
    rw [iterate_sweep_length] at hi hN
    exact hnd m (by omega) i hi h0 hN

/-- C4 (amended): when every radius is non-negative and no interior update
during the 50 passes hits the degenerate neighbor-overlap branch, every
final working point lies inside or on its own constraint disk. -/
theorem final_path_in_disks (t : XCTask)
    (hr : ∀ i : ℕ, 0 ≤ ((localCenters t).getD i default).radius)
    (hnd : NonDegenerate (localCenters t) (centersLocalPath t)) :
    ∀ i : ℕ, Real.sqrt (distSq ((optimizedLocal t).getD i default)
        ⟨((localCenters t).getD i default).x,
         ((localCenters t).getD i default).y⟩)
      ≤ ((localCenters t).getD i default).radius := by
  have hall : AllIn (localCenters t) (optimizedLocal t) := by
    unfold optimizedLocal
    refine allIn_iterate (localCenters t) (centersLocalPath t)
      (allIn_init (localCenters t)) ?_ 50 le_rfl
    exact hnd
  intro i
  have h := hall i
  unfold inDiskSq at h
  calc Real.sqrt (distSq ((optimizedLocal t).getD i default)
        ⟨((localCenters t).getD i default).x,
         ((localCenters t).getD i default).y⟩)
      ≤ Real.sqrt (((localCenters t).getD i default).radius ^ 2) :=
        Real.sqrt_le_sqrt h
    _ = ((localCenters t).getD i default).radius := Real.sqrt_sq (hr i)



/-- C4 counterexample: on a 3-disk task whose outer disks coincide, the
degenerate neighbor-overlap branch moves the middle point to its neighbor,
900 m away from its own center of radius 10 m — the final path does not
stay inside every constraint disk. -/
theorem final_point_outside_disk_counterexample :
    Real.sqrt (distSq ((optimizedLocal taskThree).getD 1 default)
        ⟨((localCenters taskThree).getD 1 default).x,
         ((localCenters taskThree).getD 1 default).y⟩) = 900 ∧
    ((localCenters taskThree).getD 1 default).radius = 10 ∧
    ((10 : ℝ) < 900) := by
  rw [optimizedLocal_taskThree, localCenters_taskThree]
  refine ⟨?_, by norm_num [List.getD_cons_succ, List.getD_cons_zero], by norm_num⟩
  have h9 : Real.sqrt 810000 = 900 := sqrt_eval _ _ (by norm_num) (by norm_num)
  norm_num [distSq, List.getD_cons_succ, List.getD_cons_zero, h9]

/-- The two-point task's initialization evaluates to the local centers. -/
lemma centersLocalPath_taskTwo :
    centersLocalPath taskTwo = [⟨0, 0⟩, ⟨1, 0⟩] := by
  unfold centersLocalPath
  rw [localCenters_taskTwo]
  rfl

/-- Witness for C4 (amended): the two-point task has no interior point, so
non-degeneracy is vacuous, and its final second point sits inside its disk. -/
theorem final_path_in_disks_witness :
    Real.sqrt (distSq ((optimizedLocal taskTwo).getD 1 default)
        ⟨((localCenters taskTwo).getD 1 default).x,
         ((localCenters taskTwo).getD 1 default).y⟩)
      ≤ ((localCenters taskTwo).getD 1 default).radius := by
  have hr : ∀ i : ℕ, 0 ≤ ((localCenters taskTwo).getD i default).radius := by
    intro i
    rw [localCenters_taskTwo]
    rcases i with _ | _ | n
    · norm_num
    · norm_num [List.getD_cons_succ, List.getD_cons_zero]
    · exact le_refl 0
  have hnd : NonDegenerate (localCenters taskTwo) (centersLocalPath taskTwo) := by
    intro m hm i hi h0 hN
    exfalso
    rw [centersLocalPath_taskTwo] at hi hN
    simp only [List.length_cons, List.length_nil] at hi hN
    omega
  exact final_path_in_disks taskTwo hr hnd 1

/-- C2 counterexample: a 2-constraint task whose second center lies 1 m from
the first center, inside the first disk of radius 100 m.  The optimizer moves
point 0 to the far boundary, so the optimized length is 99 m against a 1 m
centers-path, and the length jumps from 1 to 99 in the very first pass. -/
theorem optimized_longer_than_centers_counterexample :
    localPathLength (optimizedLocal taskTwo) = 99 ∧
    localPathLength (centersLocalPath taskTwo) = 1 ∧
    localPathLength ((sweep (localCenters taskTwo))^[1] (centersLocalPath taskTwo))
      = 99 ∧
    ((1 : ℝ) < 99) ∧
    (calculateOptimizedPath taskTwo).map (fun g => g.lon)
      = [100 / kxOf 0, 1 / kxOf 0] ∧
    (calculateOptimizedPath taskTwo).map (fun g => g.lat) = [0, 0] ∧
    taskTwo.turnpoints.map (fun tp => tp.lon) = [0, 1 / kxOf 0] ∧
    (1 : ℝ) / kxOf 0 < 100 / kxOf 0 := by
  have h99 : Real.sqrt 9801 = 99 := sqrt_eval _ _ (by norm_num) (by norm_num)
  have hs : startIndexOf taskTwo = 0 := by decide
  have he : endIndexOf taskTwo = 1 := by decide
  have hout : (calculateOptimizedPath taskTwo).map (fun g => g.lon)
        = [100 / kxOf 0, 1 / kxOf 0] ∧
      (calculateOptimizedPath taskTwo).map (fun g => g.lat) = [0, 0] := by
    unfold calculateOptimizedPath
    rw [if_neg (by decide), if_neg (by decide)]
    dsimp only
    rw [optimizedLocal_taskTwo, localCenters_taskTwo]
    have hp0 : (relevantTPs taskTwo).getD 0 default
        = ⟨0, 0, none, 100, TPType.TURNPOINT⟩ := by
      unfold relevantTPs
      rw [hs, he]
      rfl
    rw [hp0]
    unfold fromLocal
    norm_num
  refine ⟨?_, ?_, ?_, by norm_num, hout.1, hout.2, ?_, ?_⟩
  · rw [optimizedLocal_taskTwo]
    norm_num [localPathLength, distSq, h99]
  · rw [centersLocalPath_taskTwo]
    norm_num [localPathLength, distSq, Real.sqrt_one]
  · rw [Function.iterate_one, centersLocalPath_taskTwo, localCenters_taskTwo,
      sweep_taskTwo_step1]
    norm_num [localPathLength, distSq, h99]
  · rw [kxOf_zero]
    unfold taskTwo
    norm_num
  · rw [kxOf_zero]
    norm_num

/-- With both radii zero, one pass of the two-point loop keeps both working
points at their centers. -/
lemma sweep_two_radius_zero (c0 c1 : LocalTP)
    (h0 : c0.radius = 0) (h1 : c1.radius = 0) :
    sweep [c0, c1] [⟨c0.x, c0.y⟩, ⟨c1.x, c1.y⟩]
      = [⟨c0.x, c0.y⟩, ⟨c1.x, c1.y⟩] := by
  unfold sweep
  rw [show ([(⟨c0.x, c0.y⟩ : Pt), ⟨c1.x, c1.y⟩]).length = 2 from rfl]
  rw [show List.range 2 = [0, 1] from by decide]
  rw [List.foldl_cons, List.foldl_cons, List.foldl_nil]
  have hu0 : updatePoint [c0, c1] [⟨c0.x, c0.y⟩, ⟨c1.x, c1.y⟩] 0
      = ⟨c0.x, c0.y⟩ := by
    unfold updatePoint
    rw [if_pos rfl]
    dsimp only
    simp only [List.getD_cons_zero, h0]
    split_ifs <;> simp
  rw [hu0, show ([(⟨c0.x, c0.y⟩ : Pt), ⟨c1.x, c1.y⟩]).set 0 ⟨c0.x, c0.y⟩
      = [⟨c0.x, c0.y⟩, ⟨c1.x, c1.y⟩] from rfl]
  have hu1 : updatePoint [c0, c1] [⟨c0.x, c0.y⟩, ⟨c1.x, c1.y⟩] 1
      = ⟨c1.x, c1.y⟩ := by
    unfold updatePoint
    rw [if_neg (by norm_num)]
    rw [if_pos (show (1 : ℕ)
      = ([(⟨c0.x, c0.y⟩ : Pt), ⟨c1.x, c1.y⟩]).length - 1 from rfl)]
    dsimp only
    simp only [List.getD_cons_succ, List.getD_cons_zero, h1]
    split_ifs <;> simp
  rw [hu1]
  rfl

/-- C2 (amended): for a 2-constraint task with both radii zero the optimizer
is the identity on the all-centers initialization, so the optimized length
equals the centers-path length and every pass leaves the length unchanged. -/
theorem radius_zero_two_point_optimum (t : XCTask)
    (hlen : (localCenters t).length = 2)
    (h0 : ((localCenters t).getD 0 default).radius = 0)
    (h1 : ((localCenters t).getD 1 default).radius = 0) :
    optimizedLocal t = centersLocalPath t ∧
    localPathLength (optimizedLocal t) = localPathLength (centersLocalPath t) ∧
    ∀ k : ℕ, (sweep (localCenters t))^[k] (centersLocalPath t)
      = centersLocalPath t := by
  obtain ⟨c0, c1, hc⟩ := List.length_eq_two.mp hlen
  have hg0 : c0.radius = 0 := by
    rw [hc] at h0
    simpa using h0
  have hg1 : c1.radius = 0 := by
    rw [hc] at h1
    simpa using h1
  have hpath : centersLocalPath t = [⟨c0.x, c0.y⟩, ⟨c1.x, c1.y⟩] := by
    unfold centersLocalPath
    rw [hc]
    rfl
  have hfix : sweep (localCenters t) (centersLocalPath t) = centersLocalPath t := by
    rw [hpath, hc]
    exact sweep_two_radius_zero c0 c1 hg0 hg1
  have hiter : ∀ k : ℕ, (sweep (localCenters t))^[k] (centersLocalPath t)
      = centersLocalPath t := fun k => Function.iterate_fixed hfix k
  exact ⟨hiter 50, by rw [show optimizedLocal t
    = (sweep (localCenters t))^[50] (centersLocalPath t) from rfl, hiter 50], hiter⟩

/-- Two point constraints (radius 0) 1 m apart on the equator. -/
noncomputable def taskTwoZero : XCTask :=
  ⟨[⟨0, 0, none, 0, TPType.TURNPOINT⟩,
    ⟨0, 1000/111132954, none, 0, TPType.TURNPOINT⟩]⟩

/-- Projected constraints of the radius-zero two-point task. -/
lemma localCenters_taskTwoZero :
    localCenters taskTwoZero = [⟨0, 0, 0, 0⟩, ⟨1, 0, 0, 0⟩] := by
  have hs : startIndexOf taskTwoZero = 0 := by decide
  have he : endIndexOf taskTwoZero = 1 := by decide
  unfold localCenters relevantTPs
  rw [hs, he]
  show (taskTwoZero.turnpoints.take 2).map _ = _
  simp only [taskTwoZero, List.take_succ_cons, List.take_nil, List.map_cons,
    List.map_nil, List.getD_cons_zero, List.take]
  unfold toLocal
  rw [kxOf_zero, kyOf_zero]
  norm_num

/-- Witness for C2 (amended) at the radius-zero two-point task. -/
theorem radius_zero_two_point_optimum_witness :
    optimizedLocal taskTwoZero = centersLocalPath taskTwoZero ∧
    localPathLength (optimizedLocal taskTwoZero)
      = localPathLength (centersLocalPath taskTwoZero) ∧
    (sweep (localCenters taskTwoZero))^[7] (centersLocalPath taskTwoZero)
      = centersLocalPath taskTwoZero := by
  have h := radius_zero_two_point_optimum taskTwoZero
    (by rw [localCenters_taskTwoZero]; rfl)
    (by rw [localCenters_taskTwoZero]; norm_num [List.getD_cons_zero])
    (by rw [localCenters_taskTwoZero]
        norm_num [List.getD_cons_succ, List.getD_cons_zero])
  exact ⟨h.1, h.2.1, h.2.2 7⟩

/-- C5 (amended): for every accepted task the output has one point per
turnpoint of the optimized slice `[startIndex, endIndex]`. -/
theorem pathCount_matches_slice (t : XCTask) (h2 : 2 ≤ t.turnpoints.length)
    (hse : startIndexOf t < endIndexOf t) :
    (calculateOptimizedPath t).length = endIndexOf t - startIndexOf t + 1 :=
  optimizedPath_length_eq t h2 hse

/-- Witness for C5 (amended): a 2-constraint generic task yields 2 points. -/
theorem pathCount_matches_slice_witness :
    (calculateOptimizedPath taskTwo).length
      = endIndexOf taskTwo - startIndexOf taskTwo + 1 ∧
    endIndexOf taskTwo - startIndexOf taskTwo + 1 = 2 :=
  ⟨pathCount_matches_slice taskTwo (by decide) (by decide), by decide⟩

/-- Task whose SSS marker sits at index 1: the optimizer slices it away. -/
noncomputable def taskSliced : XCTask :=
  ⟨[⟨0, 0, none, 400, TPType.TURNPOINT⟩,
    ⟨0, 1/100, none, 400, TPType.SSS⟩,
    ⟨0, 2/100, none, 400, TPType.ESS⟩]⟩

/-- C5 counterexample: 3 constraints in, 2 points out — the turnpoint before
the SSS is dropped from the returned path. -/
theorem pathCount_counterexample :
    taskSliced.turnpoints.length = 3 ∧
    (calculateOptimizedPath taskSliced).length = 2 := by
  refine ⟨by decide, ?_⟩
  have h := optimizedPath_length_eq taskSliced (by decide) (by decide)
  rw [h]
  decide

end PV
